import Mathlib

/-!
Shallow embedding of `bayesquad/gps.py`: the `GP` posterior engine's analytic
hessian computation, the `WsabiLGP` warped posterior with its adaptive warp
offset `alpha` and retractable fantasy data, and the input validation helper
`_validate_and_transform_for_gpy_update`.

Machine floats are idealised as real numbers.  Stateful Python objects become
explicit state records with state-passing operations; `raise` becomes
`Except.error`.
-/

namespace Wsabi

/-- A point of the input space (one row of a 2D numpy array). -/
abbrev Point := List ℝ

/-- The training data held by the underlying GPy model: inputs `X` (one entry
per training point) and targets `Y` (one target per training point, the
trailing unit axis of the `(N, 1)` numpy array dropped). -/
structure GPModel where
  X : List Point
  Y : List ℝ

/-- Python's `min(a, *l)`: fold `min` over the extra arguments starting from
the first argument `a`. -/
def pyMin (a : ℝ) (l : List ℝ) : ℝ := l.foldl min a

/-- Python's `min(*l)` for a nonempty argument list (the code raises on an
empty one; we return a junk value there). -/
def pyMinList : List ℝ → ℝ
  | [] => 0
  | a :: l => pyMin a l

/-- The state of a `WsabiLGP` instance: the underlying model's data, the warp
offsets `_alpha` and `_true_alpha`, and the stored raw-data histories
`_all_X`, `_unwarped_Y`, `_fantasy_X`, `_fantasy_Y` (lists of batches). -/
structure WsabiState where
  model : GPModel
  alpha : ℝ
  true_alpha : ℝ
  all_X : List (List Point)
  unwarped_Y : List (List ℝ)
  fantasy_X : List (List Point)
  fantasy_Y : List (List ℝ)

/-- `WsabiLGP._warp`: `np.sqrt(2 * (y - self._alpha))`, applied to one entry. -/
noncomputable def warp (a y : ℝ) : ℝ := Real.sqrt (2 * (y - a))

/-- `WsabiLGP._warp` applied to a whole batch of raw targets. -/
noncomputable def warpList (a : ℝ) (ys : List ℝ) : List ℝ := ys.map (warp a)

/-- `WsabiLGP.__init__`: `alpha = true_alpha = 0.8 * min(*(gp.Y ** 2 / 2))`,
raw history seeded with `[gp.Y ** 2 / 2]` and `[gp.X]`, empty fantasy
history.  The underlying model's data is left untouched. -/
noncomputable def init (gp : GPModel) : WsabiState :=
  { model := gp
    alpha := 0.8 * pyMinList (gp.Y.map (fun v => v ^ 2 / 2))
    true_alpha := 0.8 * pyMinList (gp.Y.map (fun v => v ^ 2 / 2))
    all_X := [gp.X]
    unwarped_Y := [gp.Y.map (fun v => v ^ 2 / 2)]
    fantasy_X := []
    fantasy_Y := [] }

/-- A numpy `ndarray` of targets: a shape together with the (row-major) data,
with the well-formedness fact that the data has `prod shape` elements. -/
structure NdArr where
  shape : List ℕ
  data : List ℝ
  wf : data.length = shape.prod

/-- The `y` argument of `update`/`fantasise`: a plain float or an `ndarray`
of any shape. -/
inductive YInput where
  | scalar (v : ℝ)
  | arr (a : NdArr)

/-- The `x` argument of `update`/`fantasise`: a single 1D point or a 2D batch
of points. -/
inductive XInput where
  | point (p : Point)
  | batch (ps : List Point)

/-- `np.atleast_2d(x)`: a 1D point becomes a one-row 2D array. -/
def atleast2d : XInput → List Point
  | .point p => [p]
  | .batch ps => ps

/-- `y.reshape(-1, 1)` after `np.array(y)`: the data flattened into a single
column, in row-major order.  A plain float becomes a one-element column. -/
def yColumn : YInput → List ℝ
  | .scalar v => [v]
  | .arr a => a.data

/-- The error raised by `_validate_and_transform_for_gpy_update`: a
`ValueError` reporting the two disagreeing point counts. -/
inductive UpdateError where
  | shapeMismatch (xPoints yPoints : ℕ)

/-- `_validate_and_transform_for_gpy_update`: make `x` 2D, reshape `y` to a
single column, then compare the two point counts and raise on mismatch. -/
def validate (x : XInput) (y : YInput) : Except UpdateError (List Point × List ℝ) :=
  let x2 := atleast2d x
  let yc := yColumn y
  if x2.length = yc.length then .ok (x2, yc)
  else .error (.shapeMismatch x2.length yc.length)

/-- `GP.update`: concatenate the new rows onto the model's `X` and `Y`. -/
def gpUpdate (m : GPModel) (x2 : List Point) (yw : List ℝ) : GPModel :=
  { X := m.X ++ x2, Y := m.Y ++ yw }

/-- The value of `min(self._alpha, *(0.8 * y))` in `update`/`fantasise`. -/
def newMin (a : ℝ) (yc : List ℝ) : ℝ := pyMin a (yc.map (fun v => 0.8 * v))

/-- The append of a freshly validated batch to the real-data history, as done
by `WsabiLGP.update` before its alpha test. -/
def appendReal (s : WsabiState) (x2 : List Point) (yc : List ℝ) : WsabiState :=
  { s with all_X := s.all_X ++ [x2], unwarped_Y := s.unwarped_Y ++ [yc] }

/-- The append of a freshly validated batch to the fantasy-data history, as
done by `WsabiLGP.fantasise` before its alpha test. -/
def appendFantasy (s : WsabiState) (x2 : List Point) (yc : List ℝ) : WsabiState :=
  { s with fantasy_X := s.fantasy_X ++ [x2], fantasy_Y := s.fantasy_Y ++ [yc] }

/-- `WsabiLGP._update_alpha_and_reprocess_data`: set `alpha` and `true_alpha`
to the new value, re-warp every stored real batch with the new alpha, and
replace the model's data wholesale with the concatenated real history (the
fantasy history is not included). -/
noncomputable def updateAlphaAndReprocess (s : WsabiState) (a : ℝ) : WsabiState :=
  { s with
    alpha := a
    true_alpha := a
    model :=
      { X := s.all_X.flatten, Y := (s.unwarped_Y.map (warpList a)).flatten } }

/-- `WsabiLGP._fantasise_alpha_and_reprocess_data`: set only `alpha`, re-warp
the real batches followed by the fantasy batches with the new alpha, and
replace the model's data wholesale with their concatenation. -/
noncomputable def fantasiseAlphaAndReprocess (s : WsabiState) (a : ℝ) : WsabiState :=
  { s with
    alpha := a
    model :=
      { X := (s.all_X ++ s.fantasy_X).flatten
        Y := ((s.unwarped_Y ++ s.fantasy_Y).map (warpList a)).flatten } }

/-- `WsabiLGP.update`: validate, append the batch to the real history, then
take `min(alpha, *(0.8 * y))`.  The Python code reprocesses when this `min`
returns an object other than `self._alpha`, which happens exactly when some
`0.8 * y_i` compares strictly below `alpha`; otherwise the new batch is
warped with the unchanged alpha and appended incrementally. -/
noncomputable def update (s : WsabiState) (x : XInput) (y : YInput) :
    Except UpdateError WsabiState :=
  match validate x y with
  | .error e => .error e
  | .ok (x2, yc) =>
    let s1 := appendReal s x2 yc
    if ∃ v ∈ yc, 0.8 * v < s.alpha then
      .ok (updateAlphaAndReprocess s1 (newMin s.alpha yc))
    else
      .ok { s1 with model := gpUpdate s1.model x2 (warpList s1.alpha yc) }

/-- `WsabiLGP.fantasise`: identical to `update` but the batch goes to the
fantasy history and an alpha decrease triggers the fantasy reprocess, which
leaves `true_alpha` alone. -/
noncomputable def fantasise (s : WsabiState) (x : XInput) (y : YInput) :
    Except UpdateError WsabiState :=
  match validate x y with
  | .error e => .error e
  | .ok (x2, yc) =>
    let s1 := appendFantasy s x2 yc
    if ∃ v ∈ yc, 0.8 * v < s.alpha then
      .ok (fantasiseAlphaAndReprocess s1 (newMin s.alpha yc))
    else
      .ok { s1 with model := gpUpdate s1.model x2 (warpList s1.alpha yc) }

/-- `WsabiLGP.remove_fantasies`: restore `alpha := true_alpha`, re-warp and
resubmit only the real history, and clear the fantasy history. -/
noncomputable def removeFantasies (s : WsabiState) : WsabiState :=
  { s with
    alpha := s.true_alpha
    model :=
      { X := s.all_X.flatten, Y := (s.unwarped_Y.map (warpList s.true_alpha)).flatten }
    fantasy_X := []
    fantasy_Y := [] }

/-- Extract the successor state of a step, keeping the current state when the
step raised (a raised validation error leaves the object untouched). -/
def stepD (s : WsabiState) : Except UpdateError WsabiState → WsabiState
  | .ok t => t
  | .error _ => s

/-- The states reachable from a freshly constructed `WsabiLGP` by any
sequence of successful `update`, `fantasise` and `remove_fantasies` calls. -/
inductive Reach : WsabiState → Prop where
  | init (gp : GPModel) (h : gp.Y ≠ []) : Reach (Wsabi.init gp)
  | update (s s' : WsabiState) (x : XInput) (y : YInput) (hr : Reach s)
      (h : Wsabi.update s x y = .ok s') : Reach s'
  | fantasise (s s' : WsabiState) (x : XInput) (y : YInput) (hr : Reach s)
      (h : Wsabi.fantasise s x y = .ok s') : Reach s'
  | removeFantasies (s : WsabiState) (hr : Reach s) : Reach (Wsabi.removeFantasies s)

/-- Like `Reach`, but `update` may only be called while no fantasy data is
present. -/
inductive ReachNoUF : WsabiState → Prop where
  | init (gp : GPModel) (h : gp.Y ≠ []) : ReachNoUF (Wsabi.init gp)
  | update (s s' : WsabiState) (x : XInput) (y : YInput) (hr : ReachNoUF s)
      (hf : s.fantasy_Y = []) (h : Wsabi.update s x y = .ok s') : ReachNoUF s'
  | fantasise (s s' : WsabiState) (x : XInput) (y : YInput) (hr : ReachNoUF s)
      (h : Wsabi.fantasise s x y = .ok s') : ReachNoUF s'
  | removeFantasies (s : WsabiState) (hr : ReachNoUF s) :
      ReachNoUF (Wsabi.removeFantasies s)

/-! ### The posterior engine's analytic hessians (`GP.posterior_hessians`)

Query points are indexed by `Fin n`, training points by `Fin N`, input
dimensions by `Fin d`.  `H` is the kernel hessian (`kernel_hessian`), `J` the
kernel jacobian (`kernel_jacobian`), `Kinv` the training covariance inverse
(`K_D_inv`), `Kstar` the cross-covariance (`K_star`), `Yd` the training
targets (`Y_D`), and `diag` the hessian of the prior self-covariance
(`diagonal_hessian`).  The kernel primitives themselves live in
`kernel_gradients` and are black-box inputs here. -/

variable {n N d : ℕ}

/-- `np.einsum('ijkl,jm,m->ikl', kernel_hessian, K_D_inv, Y_D)`: the hessian
of the posterior mean. -/
noncomputable def mean_hessian (H : Fin n → Fin N → Fin d → Fin d → ℝ)
    (Kinv : Fin N → Fin N → ℝ) (Yd : Fin N → ℝ) : Fin n → Fin d → Fin d → ℝ :=
  fun i k l => ∑ j, ∑ m, H i j k l * Kinv j m * Yd m

/-- `data_dependent_hessian_half`: the sum of the two einsum contractions
`'iljk,lm,im->ijk'` over `(H, Kinv, Kstar)` and `'ilj,lm,imk->ijk'` over
`(J, Kinv, J)`. -/
noncomputable def data_dependent_hessian_half (H : Fin n → Fin N → Fin d → Fin d → ℝ)
    (J : Fin n → Fin N → Fin d → ℝ) (Kinv : Fin N → Fin N → ℝ)
    (Kstar : Fin n → Fin N → ℝ) : Fin n → Fin d → Fin d → ℝ :=
  fun i j k =>
    (∑ l, ∑ m, H i l j k * Kinv l m * Kstar i m) +
      ∑ l, ∑ m, J i l j * Kinv l m * J i m k

/-- `data_dependent_hessian = half + np.swapaxes(half, -1, -2)`. -/
noncomputable def data_dependent_hessian (H : Fin n → Fin N → Fin d → Fin d → ℝ)
    (J : Fin n → Fin N → Fin d → ℝ) (Kinv : Fin N → Fin N → ℝ)
    (Kstar : Fin n → Fin N → ℝ) : Fin n → Fin d → Fin d → ℝ :=
  fun i j k =>
    data_dependent_hessian_half H J Kinv Kstar i j k +
      data_dependent_hessian_half H J Kinv Kstar i k j

/-- `variance_hessian = diagonal_hessian - data_dependent_hessian`. -/
noncomputable def variance_hessian (diag : Fin n → Fin d → Fin d → ℝ)
    (H : Fin n → Fin N → Fin d → Fin d → ℝ) (J : Fin n → Fin N → Fin d → ℝ)
    (Kinv : Fin N → Fin N → ℝ) (Kstar : Fin n → Fin N → ℝ) :
    Fin n → Fin d → Fin d → ℝ :=
  fun i j k => diag i j k - data_dependent_hessian H J Kinv Kstar i j k

/-- The spec's formula `meanHessian[i,k,l] = Σ_j H[i,j,k,l] · (Kinv·Yd)[j]`,
written exactly as the spec groups it. -/
noncomputable def meanHessianSpec (H : Fin n → Fin N → Fin d → Fin d → ℝ)
    (Kinv : Fin N → Fin N → ℝ) (Yd : Fin N → ℝ) : Fin n → Fin d → Fin d → ℝ :=
  fun i k l => ∑ j, H i j k l * ∑ m, Kinv j m * Yd m

/-- The spec's
`Q[i,j,k] = Σ_l,m H[i,l,j,k]·Kinv[l,m]·K*[i,m] + Σ_l,m J[i,l,j]·Kinv[l,m]·J[i,m,k]`. -/
noncomputable def QSpec (H : Fin n → Fin N → Fin d → Fin d → ℝ)
    (J : Fin n → Fin N → Fin d → ℝ) (Kinv : Fin N → Fin N → ℝ)
    (Kstar : Fin n → Fin N → ℝ) : Fin n → Fin d → Fin d → ℝ :=
  fun i j k =>
    (∑ l, ∑ m, H i l j k * Kinv l m * Kstar i m) +
      ∑ l, ∑ m, J i l j * Kinv l m * J i m k

/-- The spec's
`varianceHessian[i,j,k] = diagonalHessian[i,j,k] − (Q[i,j,k] + Q[i,k,j])`. -/
noncomputable def varianceHessianSpec (diag : Fin n → Fin d → Fin d → ℝ)
    (H : Fin n → Fin N → Fin d → Fin d → ℝ) (J : Fin n → Fin N → Fin d → ℝ)
    (Kinv : Fin N → Fin N → ℝ) (Kstar : Fin n → Fin N → ℝ) :
    Fin n → Fin d → Fin d → ℝ :=
  fun i j k =>
    diag i j k - (QSpec H J Kinv Kstar i j k + QSpec H J Kinv Kstar i k j)

/-! ### The warped posterior's query operations (`WsabiLGP`)

The underlying engine's posterior mean `m`, variance `v` and their jacobians
come from GPy's `predict`/`predictive_gradients` and are black-box inputs
`m`, `v`, `mJ`, `vJ` here; the engine's hessians are the analytic
computations above. -/

/-- `WsabiLGP.posterior_mean_and_variance`: `mean = alpha + m² / 2` and
`variance = v · m²`, elementwise over the query points. -/
noncomputable def wsabi_posterior_mean_and_variance (a : ℝ) (m v : Fin n → ℝ) :
    (Fin n → ℝ) × (Fin n → ℝ) :=
  (fun i => a + m i ^ 2 / 2, fun i => v i * m i ^ 2)

/-- Modelled from the spec: `maths_helpers.hessian_of_f_squared_times_g` is
imported by `gps.py` but its module is not part of this repository slice.
The spec defines it, for each pair of dimensions `(j, k)`, as
`2g·(fJac_j·fJac_k + f·fHess_jk) + 2f·(fJac_j·gJac_k + fJac_k·gJac_j) + f²·gHess_jk`,
broadcast over the batch axis. -/
noncomputable def hessian_of_f_squared_times_g (f : Fin n → ℝ)
    (fJ : Fin n → Fin d → ℝ) (fH : Fin n → Fin d → Fin d → ℝ) (g : Fin n → ℝ)
    (gJ : Fin n → Fin d → ℝ) (gH : Fin n → Fin d → Fin d → ℝ) :
    Fin n → Fin d → Fin d → ℝ :=
  fun i j k =>
    2 * g i * (fJ i j * fJ i k + f i * fH i j k) +
      2 * f i * (fJ i j * gJ i k + fJ i k * gJ i j) + f i ^ 2 * gH i j k

/-- `WsabiLGP.posterior_variance_hessian`: `hessian_of_f_squared_times_g`
applied with `f` the underlying mean and `g` the underlying variance, their
hessians coming from `GP.posterior_hessians`. -/
noncomputable def wsabi_posterior_variance_hessian (m v : Fin n → ℝ)
    (mJ vJ : Fin n → Fin d → ℝ) (H : Fin n → Fin N → Fin d → Fin d → ℝ)
    (J : Fin n → Fin N → Fin d → ℝ) (Kinv : Fin N → Fin N → ℝ)
    (Kstar : Fin n → Fin N → ℝ) (Yd : Fin N → ℝ)
    (diag : Fin n → Fin d → Fin d → ℝ) : Fin n → Fin d → Fin d → ℝ :=
  hessian_of_f_squared_times_g m mJ (mean_hessian H Kinv Yd) v vJ
    (variance_hessian diag H J Kinv Kstar)

/-! ### Derived notions and concrete traces -/

/-- The training targets the spec's invariant requires the underlying model
to hold: the warp under the current alpha applied to the concatenated real
history followed by the concatenated fantasy history. -/
noncomputable def specTargets (s : WsabiState) : List ℝ :=
  (s.unwarped_Y.flatten ++ s.fantasy_Y.flatten).map (warp s.alpha)

/-- The strengthened alpha invariant used to prove the (amended) alpha
bound: `alpha ≤ true_alpha`; they agree while no fantasy data is present;
`true_alpha` is at most `0.8` times every stored real raw target; and
`alpha` is at most `0.8` times every stored fantasy raw target. -/
def InvAlpha (s : WsabiState) : Prop :=
  s.alpha ≤ s.true_alpha ∧
    (s.fantasy_Y = [] → s.alpha = s.true_alpha) ∧
    (∀ b ∈ s.unwarped_Y, ∀ r ∈ b, s.true_alpha ≤ 0.8 * r) ∧
    ∀ b ∈ s.fantasy_Y, ∀ r ∈ b, s.alpha ≤ 0.8 * r

/-- A one-point underlying model: one training input `[0]` with target `2`. -/
noncomputable def gp0 : GPModel := ⟨[[0]], [2]⟩

/-- The warped posterior freshly constructed over `gp0`; its alpha is
`0.8 * (2² / 2) = 8/5`. -/
noncomputable def s0 : WsabiState := init gp0

/-- `s0` after `fantasise([1], 1.0)`, which lowers alpha to `4/5`. -/
noncomputable def c1s1 : WsabiState := stepD s0 (fantasise s0 (.point [1]) (.scalar 1))

/-- `c1s1` after the real `update([2], 0.5)`, which lowers alpha to `2/5`
and reprocesses only the real history. -/
noncomputable def c1s2 : WsabiState :=
  stepD c1s1 (update c1s1 (.point [2]) (.scalar (1 / 2)))

/-! ## Theorems

First the helper lemmas about Python's `min` fold and about how one
`update`/`fantasise` step evaluates, then one theorem per claim. -/

theorem pyMin_le (a : ℝ) (l : List ℝ) : pyMin a l ≤ a := by
  induction l generalizing a with
  | nil => exact le_refl a
  | cons h t ih =>
    calc pyMin a (h :: t) = pyMin (min a h) t := rfl
      _ ≤ min a h := ih (min a h)
      _ ≤ a := min_le_left a h

theorem pyMin_le_of_mem {x : ℝ} {l : List ℝ} (a : ℝ) (hx : x ∈ l) :
    pyMin a l ≤ x := by
  induction l generalizing a with
  | nil => cases hx
  | cons h t ih =>
    rcases List.mem_cons.mp hx with rfl | hmem
    · calc pyMin a (x :: t) = pyMin (min a x) t := rfl
        _ ≤ min a x := pyMin_le _ t
        _ ≤ x := min_le_right a x
    · exact ih (min a h) hmem

theorem pyMin_eq_or_mem (a : ℝ) (l : List ℝ) : pyMin a l = a ∨ pyMin a l ∈ l := by
  induction l generalizing a with
  | nil => exact Or.inl rfl
  | cons h t ih =>
    rcases ih (min a h) with heq | hmem
    · rcases min_choice a h with hm | hm
      · exact Or.inl (by rw [show pyMin a (h :: t) = pyMin (min a h) t from rfl, heq, hm])
      · refine Or.inr (List.mem_cons.mpr (Or.inl ?_))
        rw [show pyMin a (h :: t) = pyMin (min a h) t from rfl, heq, hm]
    · exact Or.inr (List.mem_cons.mpr (Or.inr hmem))

theorem pyMin_lt_iff (a : ℝ) (l : List ℝ) :
    pyMin a l < a ↔ ∃ x ∈ l, x < a := by
  constructor
  · intro hlt
    rcases pyMin_eq_or_mem a l with heq | hmem
    · rw [heq] at hlt
      exact absurd hlt (lt_irrefl a)
    · exact ⟨pyMin a l, hmem, hlt⟩
  · rintro ⟨x, hx, hxa⟩
    exact lt_of_le_of_lt (pyMin_le_of_mem a hx) hxa

theorem pyMinList_le_of_mem {x : ℝ} {l : List ℝ} (hx : x ∈ l) :
    pyMinList l ≤ x := by
  cases l with
  | nil => cases hx
  | cons h t =>
    rcases List.mem_cons.mp hx with rfl | hmem
    · exact pyMin_le x t
    · exact pyMin_le_of_mem h hmem

theorem newMin_le (a : ℝ) (yc : List ℝ) : newMin a yc ≤ a := pyMin_le _ _

theorem newMin_le_of_mem {v : ℝ} {yc : List ℝ} (a : ℝ) (hv : v ∈ yc) :
    newMin a yc ≤ 0.8 * v :=
  pyMin_le_of_mem a (List.mem_map.mpr ⟨v, hv, rfl⟩)

theorem newMin_lt_iff (a : ℝ) (yc : List ℝ) :
    newMin a yc < a ↔ ∃ v ∈ yc, 0.8 * v < a := by
  rw [newMin, pyMin_lt_iff]
  simp

theorem update_eq_reprocess {s : WsabiState} {x : XInput} {y : YInput}
    {x2 : List Point} {yc : List ℝ} (hv : validate x y = .ok (x2, yc))
    (hc : ∃ v ∈ yc, 0.8 * v < s.alpha) :
    update s x y = .ok (updateAlphaAndReprocess (appendReal s x2 yc) (newMin s.alpha yc)) := by
  simp only [update, hv]
  rw [if_pos hc]

theorem update_eq_append {s : WsabiState} {x : XInput} {y : YInput}
    {x2 : List Point} {yc : List ℝ} (hv : validate x y = .ok (x2, yc))
    (hc : ¬ ∃ v ∈ yc, 0.8 * v < s.alpha) :
    update s x y = .ok { appendReal s x2 yc with
      model := gpUpdate (appendReal s x2 yc).model x2 (warpList s.alpha yc) } := by
  simp only [update, hv]
  rw [if_neg hc]
  rfl

theorem fantasise_eq_reprocess {s : WsabiState} {x : XInput} {y : YInput}
    {x2 : List Point} {yc : List ℝ} (hv : validate x y = .ok (x2, yc))
    (hc : ∃ v ∈ yc, 0.8 * v < s.alpha) :
    fantasise s x y =
      .ok (fantasiseAlphaAndReprocess (appendFantasy s x2 yc) (newMin s.alpha yc)) := by
  simp only [fantasise, hv]
  rw [if_pos hc]

theorem fantasise_eq_append {s : WsabiState} {x : XInput} {y : YInput}
    {x2 : List Point} {yc : List ℝ} (hv : validate x y = .ok (x2, yc))
    (hc : ¬ ∃ v ∈ yc, 0.8 * v < s.alpha) :
    fantasise s x y = .ok { appendFantasy s x2 yc with
      model := gpUpdate (appendFantasy s x2 yc).model x2 (warpList s.alpha yc) } := by
  simp only [fantasise, hv]
  rw [if_neg hc]
  rfl

theorem update_ok_elim {s s' : WsabiState} {x : XInput} {y : YInput}
    (h : update s x y = .ok s') :
    ∃ x2 yc, validate x y = .ok (x2, yc) ∧
      (((∃ v ∈ yc, 0.8 * v < s.alpha) ∧
          s' = updateAlphaAndReprocess (appendReal s x2 yc) (newMin s.alpha yc)) ∨
        ((¬ ∃ v ∈ yc, 0.8 * v < s.alpha) ∧
          s' = { appendReal s x2 yc with
            model := gpUpdate (appendReal s x2 yc).model x2 (warpList s.alpha yc) })) := by
  cases hv : validate x y with
  | error e => rw [update, hv] at h; cases h
  | ok p =>
    obtain ⟨x2, yc⟩ := p
    refine ⟨x2, yc, rfl, ?_⟩
    by_cases hc : ∃ v ∈ yc, 0.8 * v < s.alpha
    · rw [update_eq_reprocess hv hc] at h
      exact Or.inl ⟨hc, (Except.ok.injEq _ _ ▸ h).symm⟩
    · rw [update_eq_append hv hc] at h
      exact Or.inr ⟨hc, (Except.ok.injEq _ _ ▸ h).symm⟩

theorem fantasise_ok_elim {s s' : WsabiState} {x : XInput} {y : YInput}
    (h : fantasise s x y = .ok s') :
    ∃ x2 yc, validate x y = .ok (x2, yc) ∧
      (((∃ v ∈ yc, 0.8 * v < s.alpha) ∧
          s' = fantasiseAlphaAndReprocess (appendFantasy s x2 yc) (newMin s.alpha yc)) ∨
        ((¬ ∃ v ∈ yc, 0.8 * v < s.alpha) ∧
          s' = { appendFantasy s x2 yc with
            model := gpUpdate (appendFantasy s x2 yc).model x2 (warpList s.alpha yc) })) := by
  cases hv : validate x y with
  | error e => rw [fantasise, hv] at h; cases h
  | ok p =>
    obtain ⟨x2, yc⟩ := p
    refine ⟨x2, yc, rfl, ?_⟩
    by_cases hc : ∃ v ∈ yc, 0.8 * v < s.alpha
    · rw [fantasise_eq_reprocess hv hc] at h
      exact Or.inl ⟨hc, (Except.ok.injEq _ _ ▸ h).symm⟩
    · rw [fantasise_eq_append hv hc] at h
      exact Or.inr ⟨hc, (Except.ok.injEq _ _ ▸ h).symm⟩

theorem reach_alpha_le_true_alpha {s : WsabiState} (h : Reach s) :
    s.alpha ≤ s.true_alpha := by
  induction h with
  | init gp hY => exact le_refl _
  | update t t' x y hr hstep ih =>
    rcases update_ok_elim hstep with ⟨x2, yc, hv, hcase⟩
    rcases hcase with ⟨hc, rfl⟩ | ⟨hc, rfl⟩
    · exact le_refl _
    · exact ih
  | fantasise t t' x y hr hstep ih =>
    rcases fantasise_ok_elim hstep with ⟨x2, yc, hv, hcase⟩
    rcases hcase with ⟨hc, rfl⟩ | ⟨hc, rfl⟩
    · exact le_trans (newMin_le _ _) ih
    · exact ih
  | removeFantasies t hr ih => exact le_refl _

theorem invAlpha_init {gp : GPModel} (_hY : gp.Y ≠ []) : InvAlpha (init gp) := by
  refine ⟨le_refl _, fun _ => rfl, ?_, ?_⟩
  · intro b hb r hr
    simp only [init, List.mem_singleton] at hb
    subst hb
    have hle : pyMinList (gp.Y.map (fun v => v ^ 2 / 2)) ≤ r := pyMinList_le_of_mem hr
    calc (init gp).true_alpha = 0.8 * pyMinList (gp.Y.map (fun v => v ^ 2 / 2)) := rfl
      _ ≤ 0.8 * r := by nlinarith
  · intro b hb
    simp only [init, List.not_mem_nil] at hb

theorem reachNoUF_invAlpha {s : WsabiState} (h : ReachNoUF s) : InvAlpha s := by
  induction h with
  | init gp hY => exact invAlpha_init hY
  | update t t' x y hr hf hstep ih =>
    obtain ⟨ih1, ih2, ih3, ih4⟩ := ih
    have heq : t.alpha = t.true_alpha := ih2 hf
    rcases update_ok_elim hstep with ⟨x2, yc, hv, hcase⟩
    rcases hcase with ⟨hc, rfl⟩ | ⟨hc, rfl⟩
    · refine ⟨le_refl _, fun _ => rfl, ?_, ?_⟩
      · intro b hb r hr
        rcases List.mem_append.mp hb with hold | hnew
        · calc newMin t.alpha yc ≤ t.alpha := newMin_le _ _
            _ = t.true_alpha := heq
            _ ≤ 0.8 * r := ih3 b hold r hr
        · rw [List.mem_singleton.mp hnew] at hr
          exact newMin_le_of_mem _ hr
      · intro b hb
        simp only [updateAlphaAndReprocess, appendReal] at hb
        rw [hf] at hb
        simp at hb
    · refine ⟨ih1, fun _ => heq, ?_, ?_⟩
      · intro b hb r hr
        rcases List.mem_append.mp hb with hold | hnew
        · exact ih3 b hold r hr
        · rw [List.mem_singleton.mp hnew] at hr
          show t.true_alpha ≤ 0.8 * r
          rw [← heq]
          push_neg at hc
          exact hc r hr
      · intro b hb
        simp only [appendReal] at hb
        rw [hf] at hb
        simp at hb
  | fantasise t t' x y hr hstep ih =>
    obtain ⟨ih1, ih2, ih3, ih4⟩ := ih
    rcases fantasise_ok_elim hstep with ⟨x2, yc, hv, hcase⟩
    rcases hcase with ⟨hc, rfl⟩ | ⟨hc, rfl⟩
    · refine ⟨le_trans (newMin_le _ _) ih1, ?_, ih3, ?_⟩
      · intro hemp
        simp only [fantasiseAlphaAndReprocess, appendFantasy] at hemp
        simp at hemp
      · intro b hb r hr
        rcases List.mem_append.mp hb with hold | hnew
        · exact le_trans (newMin_le _ _) (ih4 b hold r hr)
        · rw [List.mem_singleton.mp hnew] at hr
          exact newMin_le_of_mem _ hr
    · refine ⟨ih1, ?_, ih3, ?_⟩
      · intro hemp
        simp only [appendFantasy] at hemp
        simp at hemp
      · intro b hb r hr
        rcases List.mem_append.mp hb with hold | hnew
        · exact ih4 b hold r hr
        · rw [List.mem_singleton.mp hnew] at hr
          push_neg at hc
          exact hc r hr
  | removeFantasies t hr ih =>
    obtain ⟨ih1, ih2, ih3, ih4⟩ := ih
    exact ⟨le_refl _, fun _ => rfl, ih3, fun b hb => by simp [removeFantasies] at hb⟩

theorem validate_point_scalar (p : Point) (v : ℝ) :
    validate (.point p) (.scalar v) = .ok ([p], [v]) := rfl

theorem s0_alpha : s0.alpha = 8 / 5 := by
  show 0.8 * pyMinList ([(2 : ℝ)].map (fun v => v ^ 2 / 2)) = 8 / 5
  norm_num [pyMinList, pyMin]

theorem c1s1_eq :
    c1s1 = fantasiseAlphaAndReprocess (appendFantasy s0 [[1]] [1]) (newMin s0.alpha [1]) := by
  have hc : ∃ v ∈ [(1 : ℝ)], 0.8 * v < s0.alpha := by
    refine ⟨1, List.mem_singleton_self 1, ?_⟩
    rw [s0_alpha]
    norm_num
  unfold c1s1
  rw [fantasise_eq_reprocess (validate_point_scalar [1] 1) hc]
  rfl

theorem c1s1_alpha : c1s1.alpha = 4 / 5 := by
  rw [c1s1_eq]
  show newMin s0.alpha [1] = 4 / 5
  rw [newMin, s0_alpha]
  norm_num [pyMin, min_def]

theorem c1s1_unwarped : c1s1.unwarped_Y = [[(2 : ℝ) ^ 2 / 2]] := by
  rw [c1s1_eq]
  rfl

theorem c1s1_fantasy : c1s1.fantasy_Y = [[(1 : ℝ)]] := by
  rw [c1s1_eq]
  rfl

theorem c1s2_eq :
    c1s2 =
      updateAlphaAndReprocess (appendReal c1s1 [[2]] [1 / 2]) (newMin c1s1.alpha [1 / 2]) := by
  have hc : ∃ v ∈ [(1 / 2 : ℝ)], 0.8 * v < c1s1.alpha := by
    refine ⟨1 / 2, List.mem_singleton_self _, ?_⟩
    rw [c1s1_alpha]
    norm_num
  unfold c1s2
  rw [update_eq_reprocess (validate_point_scalar [2] (1 / 2)) hc]
  rfl

/-- **C1** (code bug): the warp-consistency invariant claimed by the spec is
violated by the code.  Starting from a model with one training point
(target `2`), after `fantasise([1], 1.0)` (which lowers alpha to `4/5`) and
a real `update([2], 0.5)` (which lowers alpha to `2/5`),
`_update_alpha_and_reprocess_data` resubmits only the re-warped *real*
history, so the underlying model holds 2 targets while the stored real plus
fantasy history holds 3 raw values: the model's targets cannot equal the
warp of the concatenated histories. -/
theorem c1_warp_consistency_violated :
    c1s2.model.Y.length = 2 ∧ (specTargets c1s2).length = 3 ∧
      c1s2.model.Y ≠ specTargets c1s2 := by
  have hY : c1s2.model.Y.length = 2 := by
    rw [c1s2_eq]
    show ((((appendReal c1s1 [[2]] [1 / 2]).unwarped_Y).map
      (warpList (newMin c1s1.alpha [1 / 2]))).flatten).length = 2
    simp [appendReal, c1s1_unwarped, warpList]
  have hS : (specTargets c1s2).length = 3 := by
    rw [specTargets, c1s2_eq]
    show (((appendReal c1s1 [[2]] [1 / 2]).unwarped_Y.flatten ++
        (appendReal c1s1 [[2]] [1 / 2]).fantasy_Y.flatten).map
        (warp (newMin c1s1.alpha [1 / 2]))).length = 3
    simp [appendReal, c1s1_unwarped, c1s1_fantasy]
  refine ⟨hY, hS, fun h => ?_⟩
  have hlen := congrArg List.length h
  rw [hY, hS] at hlen
  exact absurd hlen (by norm_num)

/-- **C2**: in `WsabiLGP.update`, the wholesale re-warp-and-resubmit branch
is taken exactly when `candidateAlpha = min(alpha, *(0.8 * y))` is strictly
below the current alpha (Python's `min` returns an object other than
`self._alpha` precisely in that case); otherwise the new batch is warped
with the unchanged alpha and appended incrementally. -/
theorem c2_reprocess_iff_strictly_lower (s : WsabiState) (x : XInput)
    (y : YInput) (x2 : List Point) (yc : List ℝ)
    (hv : validate x y = .ok (x2, yc)) :
    (newMin s.alpha yc < s.alpha →
        update s x y =
          .ok (updateAlphaAndReprocess (appendReal s x2 yc) (newMin s.alpha yc))) ∧
      (¬ newMin s.alpha yc < s.alpha →
        update s x y = .ok { appendReal s x2 yc with
          model := gpUpdate (appendReal s x2 yc).model x2 (warpList s.alpha yc) }) :=
  ⟨fun hlt => update_eq_reprocess hv ((newMin_lt_iff s.alpha yc).mp hlt),
    fun hge => update_eq_append hv fun hex => hge ((newMin_lt_iff s.alpha yc).mpr hex)⟩

/-- Witness for **C2**: a concrete strictly-lowering update takes the
reprocess branch. -/
theorem c2_reprocess_iff_strictly_lower_witness :
    update s0 (.point [1]) (.scalar 1) =
      .ok (updateAlphaAndReprocess (appendReal s0 [[1]] [1]) (newMin s0.alpha [1])) :=
  (c2_reprocess_iff_strictly_lower s0 (.point [1]) (.scalar 1) [[1]] [1]
      (validate_point_scalar [1] 1)).1
    (by rw [newMin, s0_alpha]; norm_num [pyMin, min_def])

/-- **C3** (counterexample): the claimed bound
`alpha ≤ 0.8 * min(y² / 2)` over every real observation ever added fails.
From a model with one training point (target `2`, so `alpha = 8/5`), the
real update with `y = 19/10` lowers alpha to `0.8 * (19/10) = 38/25`, which
exceeds `0.8 * ((19/10)² / 2) = 361/250`: for update-added data the code
bounds alpha by `0.8 * y`, not `0.8 * y² / 2`. -/
theorem c3_counterexample :
    (19 / 10 : ℝ) ∈
        (stepD s0 (update s0 (.point [1]) (.scalar (19 / 10)))).unwarped_Y.flatten ∧
      0.8 * ((19 / 10 : ℝ) ^ 2 / 2) <
        (stepD s0 (update s0 (.point [1]) (.scalar (19 / 10)))).alpha := by
  have hc : ∃ v ∈ [(19 / 10 : ℝ)], 0.8 * v < s0.alpha := by
    refine ⟨19 / 10, List.mem_singleton_self _, ?_⟩
    rw [s0_alpha]
    norm_num
  rw [update_eq_reprocess (validate_point_scalar [1] (19 / 10)) hc]
  constructor
  · show (19 / 10 : ℝ) ∈ ((appendReal s0 [[1]] [19 / 10]).unwarped_Y).flatten
    simp [appendReal, s0, gp0, init]
  · show 0.8 * ((19 / 10 : ℝ) ^ 2 / 2) < newMin s0.alpha [19 / 10]
    rw [newMin, s0_alpha]
    norm_num [pyMin, min_def]

/-- **C3** (amended): provided `update` is never called while fantasy data
is present, in every reachable state `alpha ≤ 0.8 * r` for every stored raw
real target `r` (which is `y² / 2` for construction-time targets `y` and
the passed `y` itself for update batches), and also `alpha ≤ 0.8 * f` for
every stored fantasy raw target `f`. -/
theorem c3_alpha_bound {s : WsabiState} (h : ReachNoUF s) :
    (∀ b ∈ s.unwarped_Y, ∀ r ∈ b, s.alpha ≤ 0.8 * r) ∧
      ∀ b ∈ s.fantasy_Y, ∀ r ∈ b, s.alpha ≤ 0.8 * r := by
  obtain ⟨i1, i2, i3, i4⟩ := reachNoUF_invAlpha h
  exact ⟨fun b hb r hr => le_trans i1 (i3 b hb r hr), i4⟩

/-- Witness for the amended **C3**: at the freshly constructed state over
one training target `2`, alpha is bounded by `0.8` times the stored raw
value `2² / 2`. -/
theorem c3_alpha_bound_witness : s0.alpha ≤ 0.8 * ((2 : ℝ) ^ 2 / 2) :=
  (c3_alpha_bound (ReachNoUF.init gp0 (by simp [gp0]))).1
    ([(2 : ℝ)].map (fun v => v ^ 2 / 2)) (by simp [s0, gp0, init])
    ((2 : ℝ) ^ 2 / 2) (by simp)

/-- **C4**: `WsabiLGP.posterior_mean_and_variance` returns, elementwise over
the query points, `mean = alpha + m² / 2` and `variance = v · m²`, where
`(m, v)` is the underlying engine's posterior mean and variance. -/
theorem c4_warped_mean_and_variance (a : ℝ) (m v : Fin n → ℝ) (i : Fin n) :
    (wsabi_posterior_mean_and_variance a m v).1 i = a + m i ^ 2 / 2 ∧
      (wsabi_posterior_mean_and_variance a m v).2 i = v i * m i ^ 2 :=
  ⟨rfl, rfl⟩

/-- **C5**: `GP.posterior_hessians` computes exactly the spec's formulas:
`meanHessian[i,k,l] = Σ_j H[i,j,k,l]·(Kinv·Yd)[j]` and
`varianceHessian[i,j,k] = diagonalHessian[i,j,k] − (Q[i,j,k] + Q[i,k,j])`
with `Q[i,j,k] = Σ_l,m H[i,l,j,k]·Kinv[l,m]·K*[i,m]
+ Σ_l,m J[i,l,j]·Kinv[l,m]·J[i,m,k]`. -/
theorem c5_posterior_hessians_formulas (H : Fin n → Fin N → Fin d → Fin d → ℝ)
    (J : Fin n → Fin N → Fin d → ℝ) (Kinv : Fin N → Fin N → ℝ)
    (Kstar : Fin n → Fin N → ℝ) (Yd : Fin N → ℝ)
    (diag : Fin n → Fin d → Fin d → ℝ) :
    (∀ i k l, mean_hessian H Kinv Yd i k l = meanHessianSpec H Kinv Yd i k l) ∧
      ∀ i j k, variance_hessian diag H J Kinv Kstar i j k =
        varianceHessianSpec diag H J Kinv Kstar i j k := by
  constructor
  · intro i k l
    simp only [mean_hessian, meanHessianSpec, Finset.mul_sum, mul_assoc]
  · intro i j k
    rfl

theorem mean_hessian_swap (H : Fin n → Fin N → Fin d → Fin d → ℝ)
    (Kinv : Fin N → Fin N → ℝ) (Yd : Fin N → ℝ)
    (hH : ∀ i j k l, H i j k l = H i j l k) (i : Fin n) (k l : Fin d) :
    mean_hessian H Kinv Yd i k l = mean_hessian H Kinv Yd i l k := by
  unfold mean_hessian
  exact Finset.sum_congr rfl fun j _ =>
    Finset.sum_congr rfl fun m _ => by rw [hH]

/-- **C6**: for every query point and dimension pair `(j, k)`, the variance
hessian of the plain engine and of the warped posterior are symmetric in
the last two axes, given that the two symmetric kernel primitives (the
kernel hessian in its last two axes and the self-covariance hessian) are
symmetric; the data-dependent part is symmetrized by construction via
`Q + Qᵗ`. -/
theorem c6_variance_hessian_symmetric (m v : Fin n → ℝ)
    (mJ vJ : Fin n → Fin d → ℝ) (H : Fin n → Fin N → Fin d → Fin d → ℝ)
    (J : Fin n → Fin N → Fin d → ℝ) (Kinv : Fin N → Fin N → ℝ)
    (Kstar : Fin n → Fin N → ℝ) (Yd : Fin N → ℝ)
    (diag : Fin n → Fin d → Fin d → ℝ)
    (hH : ∀ i j k l, H i j k l = H i j l k)
    (hdiag : ∀ i j k, diag i j k = diag i k j) :
    (∀ i j k, variance_hessian diag H J Kinv Kstar i j k =
        variance_hessian diag H J Kinv Kstar i k j) ∧
      ∀ i j k, wsabi_posterior_variance_hessian m v mJ vJ H J Kinv Kstar Yd diag i j k =
        wsabi_posterior_variance_hessian m v mJ vJ H J Kinv Kstar Yd diag i k j := by
  have hvar : ∀ i j k, variance_hessian diag H J Kinv Kstar i j k =
      variance_hessian diag H J Kinv Kstar i k j := by
    intro i j k
    unfold variance_hessian data_dependent_hessian
    rw [hdiag i j k]
    ring
  refine ⟨hvar, fun i j k => ?_⟩
  unfold wsabi_posterior_variance_hessian hessian_of_f_squared_times_g
  rw [mean_hessian_swap H Kinv Yd hH i j k, hvar i j k]
  ring

/-- Witness for **C6**: both symmetry conclusions evaluated at the one-point,
one-dimensional all-zero instance. -/
theorem c6_variance_hessian_symmetric_witness :
    (variance_hessian (n := 1) (N := 1) (d := 1) (fun _ _ _ => 0)
          (fun _ _ _ _ => 0) (fun _ _ _ => 0) (fun _ _ => 0) (fun _ _ => 0) 0 0 0 =
        variance_hessian (n := 1) (N := 1) (d := 1) (fun _ _ _ => 0)
          (fun _ _ _ _ => 0) (fun _ _ _ => 0) (fun _ _ => 0) (fun _ _ => 0) 0 0 0) ∧
      wsabi_posterior_variance_hessian (n := 1) (N := 1) (d := 1) (fun _ => 0)
          (fun _ => 0) (fun _ _ => 0) (fun _ _ => 0) (fun _ _ _ _ => 0)
          (fun _ _ _ => 0) (fun _ _ => 0) (fun _ _ => 0) (fun _ => 0)
          (fun _ _ _ => 0) 0 0 0 =
        wsabi_posterior_variance_hessian (n := 1) (N := 1) (d := 1) (fun _ => 0)
          (fun _ => 0) (fun _ _ => 0) (fun _ _ => 0) (fun _ _ _ _ => 0)
          (fun _ _ _ => 0) (fun _ _ => 0) (fun _ _ => 0) (fun _ => 0)
          (fun _ _ _ => 0) 0 0 0 :=
  ⟨(c6_variance_hessian_symmetric (fun _ => 0) (fun _ => 0) (fun _ _ => 0)
      (fun _ _ => 0) (fun _ _ _ _ => 0) (fun _ _ _ => 0) (fun _ _ => 0)
      (fun _ _ => 0) (fun _ => 0) (fun _ _ _ => 0) (fun _ _ _ _ => rfl)
      (fun _ _ _ => rfl)).1 0 0 0,
    (c6_variance_hessian_symmetric (fun _ => 0) (fun _ => 0) (fun _ _ => 0)
      (fun _ _ => 0) (fun _ _ _ _ => 0) (fun _ _ _ => 0) (fun _ _ => 0)
      (fun _ _ => 0) (fun _ => 0) (fun _ _ _ => 0) (fun _ _ _ _ => rfl)
      (fun _ _ _ => rfl)).2 0 0 0⟩

/-- **C7**: over any sequence of real `update` calls from a reachable state,
`alpha` and `true_alpha` never increase, and `remove_fantasies` leaves
`alpha` exactly equal to `true_alpha`. -/
theorem c7_alpha_monotonic :
    (∀ s : WsabiState, Reach s → ∀ (x : XInput) (y : YInput),
        (stepD s (update s x y)).alpha ≤ s.alpha ∧
          (stepD s (update s x y)).true_alpha ≤ s.true_alpha) ∧
      ∀ s : WsabiState, (removeFantasies s).alpha = (removeFantasies s).true_alpha := by
  constructor
  · intro s hs x y
    cases hu : update s x y with
    | error e => exact ⟨le_refl _, le_refl _⟩
    | ok t =>
      rcases update_ok_elim hu with ⟨x2, yc, hv, hcase⟩
      rcases hcase with ⟨hc, rfl⟩ | ⟨hc, rfl⟩
      · exact ⟨newMin_le _ _, le_trans (newMin_le _ _) (reach_alpha_le_true_alpha hs)⟩
      · exact ⟨le_refl _, le_refl _⟩
  · intro s
    rfl

/-- Witness for **C7**: a concrete real update from a freshly constructed
state does not increase `alpha` or `true_alpha`. -/
theorem c7_alpha_monotonic_witness :
    (stepD s0 (update s0 (.point [1]) (.scalar 1))).alpha ≤ s0.alpha ∧
      (stepD s0 (update s0 (.point [1]) (.scalar 1))).true_alpha ≤ s0.true_alpha :=
  c7_alpha_monotonic.1 s0 (Reach.init gp0 (by simp [gp0])) (.point [1]) (.scalar 1)

/-- **C8**: `update` and `fantasise` with disagreeing point counts fail with
the shape-mismatch error before any mutation (the resulting state is the
old state unchanged), and with agreeing point counts no such error is
raised. -/
theorem c8_shape_mismatch_atomic (s : WsabiState) (x : XInput) (y : YInput) :
    ((atleast2d x).length ≠ (yColumn y).length →
        update s x y =
            .error (.shapeMismatch (atleast2d x).length (yColumn y).length) ∧
          fantasise s x y =
            .error (.shapeMismatch (atleast2d x).length (yColumn y).length) ∧
          stepD s (update s x y) = s ∧ stepD s (fantasise s x y) = s) ∧
      ((atleast2d x).length = (yColumn y).length →
        (∃ t, update s x y = .ok t) ∧ ∃ t, fantasise s x y = .ok t) := by
  constructor
  · intro hne
    have hv : validate x y =
        .error (.shapeMismatch (atleast2d x).length (yColumn y).length) := by
      simp only [validate]
      rw [if_neg hne]
    have hu : update s x y =
        .error (.shapeMismatch (atleast2d x).length (yColumn y).length) := by
      simp only [update, hv]
    have hfa : fantasise s x y =
        .error (.shapeMismatch (atleast2d x).length (yColumn y).length) := by
      simp only [fantasise, hv]
    exact ⟨hu, hfa, by rw [hu]; rfl, by rw [hfa]; rfl⟩
  · intro heq
    have hv : validate x y = .ok (atleast2d x, yColumn y) := by
      simp only [validate]
      rw [if_pos heq]
    constructor
    · by_cases hc : ∃ v ∈ yColumn y, 0.8 * v < s.alpha
      · exact ⟨_, update_eq_reprocess hv hc⟩
      · exact ⟨_, update_eq_append hv hc⟩
    · by_cases hc : ∃ v ∈ yColumn y, 0.8 * v < s.alpha
      · exact ⟨_, fantasise_eq_reprocess hv hc⟩
      · exact ⟨_, fantasise_eq_append hv hc⟩

/-- Witness for **C8**: a two-point `x` with a one-element `y` raises the
shape-mismatch error reporting counts 2 and 1. -/
theorem c8_shape_mismatch_atomic_witness :
    update s0 (.batch [[0], [1]]) (.scalar 5) = .error (.shapeMismatch 2 1) :=
  (((c8_shape_mismatch_atomic s0 (.batch [[0], [1]]) (.scalar 5)).1
      (by simp [atleast2d, yColumn]))).1

/-- **C9**: `fantasise` never changes `true_alpha`, even when it lowers
`alpha` and reprocesses all data, and `remove_fantasies` does not change it
either. -/
theorem c9_fantasise_preserves_true_alpha (s : WsabiState) (x : XInput) (y : YInput) :
    (stepD s (fantasise s x y)).true_alpha = s.true_alpha ∧
      (removeFantasies s).true_alpha = s.true_alpha := by
  constructor
  · cases hf : fantasise s x y with
    | error e => rfl
    | ok t =>
      rcases fantasise_ok_elim hf with ⟨x2, yc, hv, hcase⟩
      rcases hcase with ⟨hc, rfl⟩ | ⟨hc, rfl⟩ <;> rfl
  · rfl

/-- **C10**: `y` is reshaped to a single column before the point-count
check, so any `y` array whose total number of elements equals the number of
points in `x` is accepted regardless of its shape, and a plain float `y` is
accepted for a single-point `x`. -/
theorem c10_y_reshaped_before_count_check (x : XInput) :
    (∀ a : NdArr, a.shape.prod = (atleast2d x).length →
        validate x (.arr a) = .ok (atleast2d x, a.data)) ∧
      ((atleast2d x).length = 1 →
        ∀ v : ℝ, validate x (.scalar v) = .ok (atleast2d x, [v])) := by
  constructor
  · intro a ha
    have hlen : (atleast2d x).length = (yColumn (.arr a)).length := by
      show (atleast2d x).length = a.data.length
      rw [a.wf]
      exact ha.symm
    simp only [validate]
    rw [if_pos hlen]
    rfl
  · intro h1 v
    have hlen : (atleast2d x).length = (yColumn (.scalar v)).length := by
      rw [h1]
      rfl
    simp only [validate]
    rw [if_pos hlen]
    rfl

/-- Witness for **C10**: a `(1, 3)` row vector `y` is accepted for a
three-point `x`, and a plain float is accepted for a single 1D point. -/
theorem c10_y_reshaped_before_count_check_witness :
    validate (.batch [[0], [1], [2]]) (.arr ⟨[1, 3], [5, 6, 7], rfl⟩) =
        .ok ([[0], [1], [2]], [5, 6, 7]) ∧
      validate (.point [0]) (.scalar 5) = .ok ([[0]], [5]) :=
  ⟨(c10_y_reshaped_before_count_check (.batch [[0], [1], [2]])).1
      ⟨[1, 3], [5, 6, 7], rfl⟩ rfl,
    (c10_y_reshaped_before_count_check (.point [0])).2 rfl 5⟩

end Wsabi
